import Mathlib

/-!
# The node access point of `lib/auth/ap.go`

`ap.go` declares the `AccessPoint` interface (ten methods), the facade type
`BackendAccessPoint` (four embedded service pointers) and its constructor
`NewBackendAccessPoint`.  The four service types and the backend interface live
in the packages `lib/services` and `lib/backend`, whose sources are not part of
the development at hand; they are modelled from the design document and every
such definition says so in its doc comment.

Layout: data model, key-value backend, services, interface and facade, then the
theorems `C1` .. `C8`.
-/

namespace teleport

/-! ## Basic types -/

/-- Go `time.Duration`: a signed count of nanoseconds. -/
abbrev Duration := Int

/-- Go `time.Second`. -/
def second : Int := 1000000000

/-- A Go pointer: `none` is `nil`. -/
abbrev Ptr (α : Type) := Option α

/-- Error taxonomy of the design document, section 7. -/
inductive Error where
  | ValidationError
  | NotFoundError
  | BackendError
  deriving DecidableEq, Repr

/-- Outcome of a Go call returning `(value, error)`: a run-time panic (nil
dereference), a non-nil error, or a value with a nil error. -/
inductive Res (α : Type) where
  | panic
  | fail (e : Error)
  | ok (a : α)
  deriving DecidableEq, Repr

/-- Sequencing on outcomes: panics and errors propagate unchanged. -/
def Res.bind {α β : Type} (r : Res α) (f : α → Res β) : Res β :=
  match r with
  | .panic => .panic
  | .fail e => .fail e
  | .ok a => f a

/-- Go `ssh.PublicKey` of `golang.org/x/crypto/ssh`, reduced to its algorithm
name and its marshalled bytes. -/
structure PublicKey where
  keyType : String
  blob : String
  deriving DecidableEq, Repr

namespace services

/-- Modelled from the spec: `services.Server` is declared outside `ap.go`;
section 3 gives identifier, network address, labels and last-heartbeat
timestamp. -/
structure Server where
  id : String
  addr : String
  labels : List (String × String)
  lastHeartbeat : Int
  deriving DecidableEq, Repr

/-- Modelled from the spec: `services.CertificateAuthority` is declared outside
`ap.go`; section 3 gives type, domain name, ordered public keys and optional
private key material. -/
structure CertificateAuthority where
  certType : String
  domainName : String
  publicKeys : List PublicKey
  privateKey : Option String
  deriving DecidableEq, Repr

/-- Modelled from the spec: `services.AuthorizedKey` is declared outside
`ap.go`; section 3 describes a public key bound to a web session and a user. -/
structure AuthorizedKey where
  publicKey : PublicKey
  session : String
  user : String
  deriving DecidableEq, Repr

/-- Modelled from the spec: the user mapping entry of section 3, the triple
`(certificateID, teleportUser, osUser)`. -/
structure UserMappingEntry where
  certificateID : String
  teleportUser : String
  osUser : String
  deriving DecidableEq, Repr

end services

open services

/-! ## The key-value backend (design document, section 6) -/

namespace backend

/-- Keys are paths; `list` selects by path prefix. -/
abbrev Key := List String

/-- Values held by the store. -/
inductive Val where
  | server (s : Server)
  | authority (ca : CertificateAuthority)
  | authorizedKey (k : AuthorizedKey)
  | certificateID (id : String)
  | userMapping (e : UserMappingEntry)
  deriving DecidableEq, Repr

/-- Decoding of a stored value as a server. -/
def Val.asServer : Val → Option Server
  | .server s => some s
  | _ => none

/-- Decoding of a stored value as a certificate authority. -/
def Val.asAuthority : Val → Option CertificateAuthority
  | .authority ca => some ca
  | _ => none

/-- Decoding of a stored value as an authorized key. -/
def Val.asAuthorizedKey : Val → Option AuthorizedKey
  | .authorizedKey k => some k
  | _ => none

/-- Decoding of a stored value as a certificate identifier. -/
def Val.asCertificateID : Val → Option String
  | .certificateID id => some id
  | _ => none

/-- Decoding of a stored value as a user mapping entry. -/
def Val.asUserMapping : Val → Option UserMappingEntry
  | .userMapping e => some e
  | _ => none

/-- One stored entry; `expires = none` means the entry is permanent, otherwise
the entry is gone from the instant `expires` on. -/
structure Entry where
  key : Key
  value : Val
  expires : Option Int
  deriving DecidableEq, Repr

/-- An entry is live at `now` when it is permanent or not yet expired. -/
def Entry.live (e : Entry) (now : Int) : Bool :=
  match e.expires with
  | none => true
  | some t => decide (now < t)

/-- The four operations of the backend collaborator, as recorded in its log. -/
inductive Op where
  | get (key : Key)
  | put (key : Key) (value : Val) (ttl : Duration)
  | list (pfx : Key)
  | delete (key : Key)
  deriving DecidableEq, Repr

/-- Modelled from the spec: the backend store of section 6, a key-value
abstraction with TTL expiry.  `available = false` stands for unavailable
storage; `log` records every operation asked of the store, in order. -/
structure Store where
  entries : List Entry
  available : Bool
  log : List Op
  deriving DecidableEq, Repr

/-- Modelled from the spec: the rounding of a TTL to whole seconds.  Section 9
leaves the direction open, so it is a parameter: any function whose result is a
whole number of seconds less than one second away from its argument. -/
structure Rounding where
  round : Int → Int
  whole : ∀ d, round d % second = 0
  near : ∀ d, d - second < round d ∧ round d < d + second

/-- Rounding down, the instance used in examples. -/
def Rounding.floor : Rounding where
  round := fun d => d / second * second
  whole := fun d => by
    have h : ∀ x : Int, (x / 1000000000 * 1000000000) % 1000000000 = 0 := by
      intro x; omega
    exact h d
  near := fun d => by
    have h : ∀ x : Int, x - 1000000000 < x / 1000000000 * 1000000000
        ∧ x / 1000000000 * 1000000000 < x + 1000000000 := by
      intro x; omega
    exact h d

/-- The live entry stored under `key`, if any. -/
def Store.lookup (st : Store) (now : Int) (key : Key) : Option Entry :=
  st.entries.find? (fun e => decide (e.key = key) && e.live now)

/-- Modelled from the spec: `get(key)` of section 6; fails with the
distinguishable not-found condition when no live entry has the key. -/
def Store.get (st : Store) (now : Int) (key : Key) : Res Val × Store :=
  let st1 := { st with log := st.log ++ [Op.get key] }
  if st.available then
    match st.lookup now key with
    | some e => (.ok e.value, st1)
    | none => (.fail .NotFoundError, st1)
  else (.fail .BackendError, st1)

/-- The expiry instant of an entry written at `now` with `ttl`: none for
`ttl = 0`, otherwise `now` plus the TTL at second resolution. -/
def expiry (r : Rounding) (now : Int) (ttl : Duration) : Option Int :=
  if ttl = 0 then none else some (now + r.round ttl)

/-- Modelled from the spec: `put(key, value, ttl)` of section 6; the write
replaces whatever was stored under the key. -/
def Store.put (r : Rounding) (st : Store) (now : Int) (key : Key) (value : Val)
    (ttl : Duration) : Res Unit × Store :=
  let lg := st.log ++ [Op.put key value ttl]
  if st.available then
    (.ok (), { st with
      entries := ⟨key, value, expiry r now ttl⟩ :: st.entries.filter (fun e => decide (e.key ≠ key)),
      log := lg })
  else (.fail .BackendError, { st with log := lg })

/-- Modelled from the spec: `list(prefix)` of section 6; the values of all live
entries whose key starts with the given path, in storage order. -/
def Store.list (st : Store) (now : Int) (pfx : Key) : Res (List Val) × Store :=
  let st1 := { st with log := st.log ++ [Op.list pfx] }
  if st.available then
    (.ok ((st.entries.filter (fun e => pfx.isPrefixOf e.key && e.live now)).map (·.value)), st1)
  else (.fail .BackendError, st1)

/-- Modelled from the spec: `delete(key)` of section 6. -/
def Store.delete (st : Store) (now : Int) (key : Key) : Res Unit × Store :=
  let st1 := { st with log := st.log ++ [Op.delete key] }
  if st.available then
    match st.lookup now key with
    | some _ => (.ok (), { st1 with entries := st.entries.filter (fun e => decide (e.key ≠ key)) })
    | none => (.fail .NotFoundError, st1)
  else (.fail .BackendError, st1)

/-- Go `backend.Backend`: an interface value, `none` for the nil interface,
`some i` for a handle on store number `i`. -/
abbrev Backend := Option Nat

end backend

open backend

/-- Everything outside the facade that a call can observe or change: the clock
(nanoseconds) and the state of every backend store. -/
structure World where
  now : Int
  stores : Nat → Store

/-- Replace the state of store `i`. -/
def World.setStore (w : World) (i : Nat) (st : Store) : World :=
  { w with stores := Function.update w.stores i st }

/-- A Go call as a state transformer on the world. -/
abbrev M (α : Type) := World → Res α × World

namespace backend

/-- Run a store operation through a handle; a nil handle panics. -/
def Backend.run {α : Type} (bk : Backend) (f : Store → Int → Res α × Store) : M α :=
  fun w =>
    match bk with
    | none => (.panic, w)
    | some i => ((f (w.stores i) w.now).1, w.setStore i (f (w.stores i) w.now).2)

/-- Operation `get` through a handle. -/
def Backend.get (bk : Backend) (key : Key) : M Val :=
  bk.run (fun st now => st.get now key)

/-- Operation `put` through a handle. -/
def Backend.put (r : Rounding) (bk : Backend) (key : Key) (value : Val) (ttl : Duration) : M Unit :=
  bk.run (fun st now => st.put r now key value ttl)

/-- Operation `list` through a handle. -/
def Backend.list (bk : Backend) (pfx : Key) : M (List Val) :=
  bk.run (fun st now => st.list now pfx)

/-- Operation `delete` through a handle. -/
def Backend.delete (bk : Backend) (key : Key) : M Unit :=
  bk.run (fun st now => st.delete now key)

end backend

/-- Result of `m` passed through `f`; the effect on the world is that of `m`. -/
def M.map {α β : Type} (f : α → β) (m : M α) : M β :=
  fun w => ((m w).1.bind (fun a => .ok (f a)), (m w).2)

/-! ## The services of `lib/services` -/

/-- Modelled from the spec: what the design leaves to the implementation of the
services, which is not in `ap.go`: the TTL rounding (section 9), when a server
record or a public key is malformed (section 7 names the error, not the
condition) and the hash of a user mapping entry (section 9). -/
structure Choices where
  rounding : Rounding
  validServer : Server → Bool
  wellFormedKey : PublicKey → Bool
  hash : UserMappingEntry → String

namespace services

/-- Certificate type of the user authority. -/
def UserCert : String := "user"

/-- Certificate type of the host authority. -/
def HostCert : String := "host"

/-- Modelled from the spec: the check of a `certType` argument, section 4.2:
the type is one of `user`, `host`. -/
def validCertType (certType : String) : Bool :=
  decide (certType = UserCert) || decide (certType = HostCert)

/-- Decode every listed value; a value of the wrong shape is a storage failure. -/
def decodeAll {α : Type} (f : Val → Option α) : List Val → Res (List α)
  | [] => .ok []
  | v :: vs =>
    match f v, decodeAll f vs with
    | some a, .ok l => .ok (a :: l)
    | _, _ => .fail .BackendError

/-- Modelled from the spec: `services.CAService` is defined outside `ap.go`;
section 5 makes every sub-store a stateless wrapper that holds the backend
handle and nothing else. -/
structure CAService where
  backend : Backend
  deriving DecidableEq, Repr

/-- Modelled from the spec: `services.PresenceService`, a stateless wrapper
around the backend handle (section 5). -/
structure PresenceService where
  backend : Backend
  deriving DecidableEq, Repr

/-- Modelled from the spec: `services.ProvisioningService`, a stateless wrapper
around the backend handle (section 5). -/
structure ProvisioningService where
  backend : Backend
  deriving DecidableEq, Repr

/-- Modelled from the spec: `services.WebService`, a stateless wrapper around
the backend handle (section 5). -/
structure WebService where
  backend : Backend
  deriving DecidableEq, Repr

/-- Modelled from the spec: `services.NewCAService` is defined outside `ap.go`;
it wraps the handle it is given (sections 4.5 and 5) and asks nothing of the
backend. -/
def NewCAService (bk : Backend) : M (Ptr CAService) :=
  fun w => (.ok (some { backend := bk }), w)

/-- Modelled from the spec: `services.NewPresenceService`, wrapping the handle
it is given. -/
def NewPresenceService (bk : Backend) : M (Ptr PresenceService) :=
  fun w => (.ok (some { backend := bk }), w)

/-- Modelled from the spec: `services.NewProvisioningService`, wrapping the
handle it is given. -/
def NewProvisioningService (bk : Backend) : M (Ptr ProvisioningService) :=
  fun w => (.ok (some { backend := bk }), w)

/-- Modelled from the spec: `services.NewWebService`, wrapping the handle it is
given. -/
def NewWebService (bk : Backend) : M (Ptr WebService) :=
  fun w => (.ok (some { backend := bk }), w)

/-- Key of a server record. -/
def serverKey (id : String) : Key := ["servers", id]

/-- Key of a certificate identifier. -/
def certificateKey (certType : String) (key : PublicKey) : Key :=
  ["certificates", certType, key.keyType, key.blob]

/-- Modelled from the spec: `listServers` of section 4.1: all currently
non-expired servers. -/
def PresenceService.GetServers (s : Ptr PresenceService) : M (List Server) :=
  fun w =>
    match s with
    | none => (.panic, w)
    | some svc =>
      ((svc.backend.list ["servers"] w).1.bind (decodeAll Val.asServer),
        (svc.backend.list ["servers"] w).2)

/-- Modelled from the spec: `upsertServer` of section 4.1: a malformed record
is a `ValidationError`; otherwise the record is written under its identifier,
permanently for `ttl = 0` and with expiry at `now + ttl` (second resolution)
otherwise. -/
def PresenceService.UpsertServer (ch : Choices) (s : Ptr PresenceService) (srv : Server)
    (ttl : Duration) : M Unit :=
  fun w =>
    if ch.validServer srv then
      match s with
      | none => (.panic, w)
      | some svc => svc.backend.put ch.rounding (serverKey srv.id) (.server srv) ttl w
    else (.fail .ValidationError, w)

/-- Read one certificate authority stored under `key`. -/
def CAService.getAuthority (s : Ptr CAService) (key : Key) : M (Ptr CertificateAuthority) :=
  fun w =>
    match s with
    | none => (.panic, w)
    | some svc =>
      ((svc.backend.get key w).1.bind (fun v =>
          match v.asAuthority with
          | some ca => .ok (some ca)
          | none => .fail .BackendError),
        (svc.backend.get key w).2)

/-- Modelled from the spec: `getUserCA` of section 4.2; fails with
`NotFoundError` when there is none. -/
def CAService.GetUserCertificateAuthority (s : Ptr CAService) : M (Ptr CertificateAuthority) :=
  CAService.getAuthority s ["authorities", UserCert]

/-- Modelled from the spec: `getHostCA` of section 4.2; fails with
`NotFoundError` when there is none. -/
def CAService.GetHostCertificateAuthority (s : Ptr CAService) : M (Ptr CertificateAuthority) :=
  CAService.getAuthority s ["authorities", HostCert]

/-- List the certificate authorities stored under a path, after the check of
the certificate type. -/
def CAService.listAuthorities (s : Ptr CAService) (certType : String) (pfx : Key) :
    M (List CertificateAuthority) :=
  fun w =>
    if validCertType certType then
      match s with
      | none => (.panic, w)
      | some svc =>
        ((svc.backend.list pfx w).1.bind (decodeAll Val.asAuthority), (svc.backend.list pfx w).2)
    else (.fail .ValidationError, w)

/-- Modelled from the spec: `getRemoteCertificates` of section 4.2: an unknown
`certType` is rejected before storage is touched; the entries are scoped by
`(certType, domainName)`. -/
def CAService.GetRemoteCertificates (s : Ptr CAService) (certType domainName : String) :
    M (List CertificateAuthority) :=
  CAService.listAuthorities s certType ["authorities", "remote", certType, domainName]

/-- Modelled from the spec: `getTrustedCertificates` of section 4.2: an unknown
`certType` is rejected before storage is touched. -/
def CAService.GetTrustedCertificates (s : Ptr CAService) (certType : String) :
    M (List CertificateAuthority) :=
  CAService.listAuthorities s certType ["authorities", "trusted", certType]

/-- Modelled from the spec: `getCertificateID` of section 4.3: `ValidationError`
on an unknown `certType` or a malformed key; a key that is not registered gives
`found = false` and no error; a storage failure is surfaced as it is. -/
def CAService.GetCertificateID (ch : Choices) (s : Ptr CAService) (certType : String)
    (key : PublicKey) : M (String × Bool) :=
  fun w =>
    if validCertType certType && ch.wellFormedKey key then
      match s with
      | none => (.panic, w)
      | some svc =>
        (match (svc.backend.get (certificateKey certType key) w).1 with
          | .ok v =>
            match v.asCertificateID with
            | some id => .ok (id, true)
            | none => .fail .BackendError
          | .fail .NotFoundError => .ok ("", false)
          | .fail e => .fail e
          | .panic => .panic,
          (svc.backend.get (certificateKey certType key) w).2)
    else (.fail .ValidationError, w)

/-- Modelled from the spec: `listAllMappingHashes` of section 4.4. -/
def CAService.GetAllUserMappings (ch : Choices) (s : Ptr CAService) : M (List String) :=
  fun w =>
    match s with
    | none => (.panic, w)
    | some svc =>
      (((svc.backend.list ["usermappings"] w).1.bind (decodeAll Val.asUserMapping)).bind
          (fun l => .ok (l.map ch.hash)),
        (svc.backend.list ["usermappings"] w).2)

/-- Modelled from the spec: `mappingExists` of section 4.4, a membership test
on the triple. -/
def CAService.UserMappingExists (s : Ptr CAService) (certificateID teleportUser osUser : String) :
    M Bool :=
  fun w =>
    match s with
    | none => (.panic, w)
    | some svc =>
      (match (svc.backend.get ["usermappings", certificateID, teleportUser, osUser] w).1 with
        | .ok _ => .ok true
        | .fail .NotFoundError => .ok false
        | .fail e => .fail e
        | .panic => .panic,
        (svc.backend.get ["usermappings", certificateID, teleportUser, osUser] w).2)

/-- Modelled from the spec: the keys of a user's web sessions; section 3 binds
an authorized key to a web session and a user. -/
def WebService.GetWebSessionsKeys (s : Ptr WebService) (user : String) : M (List AuthorizedKey) :=
  fun w =>
    match s with
    | none => (.panic, w)
    | some svc =>
      ((svc.backend.list ["web", "users", user, "sessions"] w).1.bind
          (decodeAll Val.asAuthorizedKey),
        (svc.backend.list ["web", "users", user, "sessions"] w).2)

end services

/-! ## `lib/auth/ap.go` -/

namespace auth

open services

/-- The method set of the interface `AccessPoint` (`ap.go`, lines 28 to 60), in
source order. -/
inductive Method where
  | GetServers
  | UpsertServer
  | GetUserCertificateAuthority
  | GetHostCertificateAuthority
  | GetWebSessionsKeys
  | GetRemoteCertificates
  | GetTrustedCertificates
  | GetCertificateID
  | GetAllUserMappings
  | UserMappingExists
  deriving DecidableEq, Repr, Fintype

/-- Signature of an interface method: name, parameter types, result types. -/
structure MethodSig where
  name : String
  params : List String
  results : List String
  deriving DecidableEq, Repr

/-- The declaration of each method of `AccessPoint`, as written in `ap.go`. -/
def Method.sig : Method → MethodSig
  | .GetServers => ⟨"GetServers", [], ["[]services.Server", "error"]⟩
  | .UpsertServer => ⟨"UpsertServer", ["services.Server", "time.Duration"], ["error"]⟩
  | .GetUserCertificateAuthority =>
    ⟨"GetUserCertificateAuthority", [], ["*services.CertificateAuthority", "error"]⟩
  | .GetHostCertificateAuthority =>
    ⟨"GetHostCertificateAuthority", [], ["*services.CertificateAuthority", "error"]⟩
  | .GetWebSessionsKeys => ⟨"GetWebSessionsKeys", ["string"], ["[]services.AuthorizedKey", "error"]⟩
  | .GetRemoteCertificates =>
    ⟨"GetRemoteCertificates", ["string", "string"], ["[]services.CertificateAuthority", "error"]⟩
  | .GetTrustedCertificates =>
    ⟨"GetTrustedCertificates", ["string"], ["[]services.CertificateAuthority", "error"]⟩
  | .GetCertificateID => ⟨"GetCertificateID", ["string", "ssh.PublicKey"], ["string", "bool", "error"]⟩
  | .GetAllUserMappings => ⟨"GetAllUserMappings", [], ["[]string", "error"]⟩
  | .UserMappingExists => ⟨"UserMappingExists", ["string", "string", "string"], ["bool", "error"]⟩

/-- The interface `AccessPoint`: its methods in source order. -/
def AccessPoint : List Method :=
  [.GetServers, .UpsertServer, .GetUserCertificateAuthority, .GetHostCertificateAuthority,
   .GetWebSessionsKeys, .GetRemoteCertificates, .GetTrustedCertificates, .GetCertificateID,
   .GetAllUserMappings, .UserMappingExists]

/-- The nine operations that sections 4.1 to 4.4 of the design document list,
following the document's words. -/
inductive SpecOperation where
  | listServers
  | upsertServer
  | getUserCA
  | getHostCA
  | getRemoteCertificates
  | getTrustedCertificates
  | getCertificateID
  | mappingExists
  | listAllMappingHashes
  deriving DecidableEq, Repr, Fintype

/-- Number of parameters the design document gives each operation. -/
def SpecOperation.arity : SpecOperation → Nat
  | .listServers => 0
  | .upsertServer => 2
  | .getUserCA => 0
  | .getHostCA => 0
  | .getRemoteCertificates => 2
  | .getTrustedCertificates => 1
  | .getCertificateID => 2
  | .mappingExists => 3
  | .listAllMappingHashes => 0

/-- The operation of the design document that an interface method stands for,
if there is one. -/
def Method.specOperation : Method → Option SpecOperation
  | .GetServers => some .listServers
  | .UpsertServer => some .upsertServer
  | .GetUserCertificateAuthority => some .getUserCA
  | .GetHostCertificateAuthority => some .getHostCA
  | .GetWebSessionsKeys => none
  | .GetRemoteCertificates => some .getRemoteCertificates
  | .GetTrustedCertificates => some .getTrustedCertificates
  | .GetCertificateID => some .getCertificateID
  | .GetAllUserMappings => some .listAllMappingHashes
  | .UserMappingExists => some .mappingExists

/-- A call of an `AccessPoint` method together with its argument list. -/
inductive Call where
  | GetServers
  | UpsertServer (s : Server) (ttl : Duration)
  | GetUserCertificateAuthority
  | GetHostCertificateAuthority
  | GetWebSessionsKeys (user : String)
  | GetRemoteCertificates (certType domainName : String)
  | GetTrustedCertificates (certType : String)
  | GetCertificateID (certType : String) (key : PublicKey)
  | GetAllUserMappings
  | UserMappingExists (certificateID teleportUser osUser : String)
  deriving DecidableEq, Repr

/-- The method a call invokes. -/
def Call.method : Call → Method
  | .GetServers => .GetServers
  | .UpsertServer _ _ => .UpsertServer
  | .GetUserCertificateAuthority => .GetUserCertificateAuthority
  | .GetHostCertificateAuthority => .GetHostCertificateAuthority
  | .GetWebSessionsKeys _ => .GetWebSessionsKeys
  | .GetRemoteCertificates _ _ => .GetRemoteCertificates
  | .GetTrustedCertificates _ => .GetTrustedCertificates
  | .GetCertificateID _ _ => .GetCertificateID
  | .GetAllUserMappings => .GetAllUserMappings
  | .UserMappingExists _ _ _ => .UserMappingExists

/-- The non-error results of the ten methods. -/
inductive Value where
  | servers (l : List Server)
  | done
  | authority (ca : Ptr CertificateAuthority)
  | webSessionsKeys (l : List AuthorizedKey)
  | authorities (l : List CertificateAuthority)
  | certificateID (id : String) (found : Bool)
  | hashes (l : List String)
  | mappingExists (b : Bool)
  deriving DecidableEq, Repr

/-- The facade type of `ap.go`, lines 62 to 67: four embedded service pointers
and nothing else.  The zero value has all four nil. -/
structure BackendAccessPoint where
  CAService : Ptr services.CAService := none
  PresenceService : Ptr services.PresenceService := none
  ProvisioningService : Ptr services.ProvisioningService := none
  WebService : Ptr services.WebService := none
  deriving DecidableEq, Repr

/-- Sequencing of Go calls: the second runs in the world the first leaves. -/
def seq {α β : Type} (m : M α) (f : α → M β) : M β :=
  fun w =>
    match (m w).1 with
    | .ok a => f a (m w).2
    | .fail e => (.fail e, (m w).2)
    | .panic => (.panic, (m w).2)

/-- The constructor of `ap.go`, lines 69 to 77: a zero facade whose four fields
are then assigned the services built on `bk`, returned by address. -/
def NewBackendAccessPoint (bk : Backend) : M (Ptr BackendAccessPoint) :=
  let ap : BackendAccessPoint := {}
  seq (services.NewCAService bk) fun ca =>
  let ap := { ap with CAService := ca }
  seq (services.NewPresenceService bk) fun ps =>
  let ap := { ap with PresenceService := ps }
  seq (services.NewProvisioningService bk) fun pv =>
  let ap := { ap with ProvisioningService := pv }
  seq (services.NewWebService bk) fun ws =>
  let ap := { ap with WebService := ws }
  fun w => (.ok (some ap), w)

/-- The embedded fields of `BackendAccessPoint`. -/
inductive Embedded where
  | CAService
  | PresenceService
  | ProvisioningService
  | WebService
  deriving DecidableEq, Repr, Fintype

/-- The embedded fields in declaration order. -/
def BackendAccessPoint.embedded : List Embedded :=
  [.CAService, .PresenceService, .ProvisioningService, .WebService]

/-- Modelled from the spec: the part of each service's method set that bears a
name of `AccessPoint`.  The services are defined outside `ap.go`; sections 4.1
and 4.2 give the presence and authority operations, the certificate identifier
and user mapping operations of sections 4.3 and 4.4 are placed on the authority
service, the web session keys on the web service, and the provisioning service
provides none of the ten. -/
def Embedded.methods : Embedded → List Method
  | .CAService =>
    [.GetUserCertificateAuthority, .GetHostCertificateAuthority, .GetRemoteCertificates,
     .GetTrustedCertificates, .GetCertificateID, .GetAllUserMappings, .UserMappingExists]
  | .PresenceService => [.GetServers, .UpsertServer]
  | .ProvisioningService => []
  | .WebService => [.GetWebSessionsKeys]

/-- A call made directly on the authority service; none when the service has no
such method. -/
def invokeCAService (ch : Choices) (s : Ptr services.CAService) : Call → Option (M Value)
  | .GetUserCertificateAuthority => some (M.map .authority (CAService.GetUserCertificateAuthority s))
  | .GetHostCertificateAuthority => some (M.map .authority (CAService.GetHostCertificateAuthority s))
  | .GetRemoteCertificates certType domainName =>
    some (M.map .authorities (CAService.GetRemoteCertificates s certType domainName))
  | .GetTrustedCertificates certType =>
    some (M.map .authorities (CAService.GetTrustedCertificates s certType))
  | .GetCertificateID certType key =>
    some (M.map (fun r => .certificateID r.1 r.2) (CAService.GetCertificateID ch s certType key))
  | .GetAllUserMappings => some (M.map .hashes (CAService.GetAllUserMappings ch s))
  | .UserMappingExists certificateID teleportUser osUser =>
    some (M.map .mappingExists (CAService.UserMappingExists s certificateID teleportUser osUser))
  | _ => none

/-- A call made directly on the presence service. -/
def invokePresenceService (ch : Choices) (s : Ptr services.PresenceService) :
    Call → Option (M Value)
  | .GetServers => some (M.map .servers (PresenceService.GetServers s))
  | .UpsertServer srv ttl => some (M.map (fun _ => .done) (PresenceService.UpsertServer ch s srv ttl))
  | _ => none

/-- A call made directly on the provisioning service: it has none of the ten
methods. -/
def invokeProvisioningService (_s : Ptr services.ProvisioningService) : Call → Option (M Value)
  | _ => none

/-- A call made directly on the web service. -/
def invokeWebService (s : Ptr services.WebService) : Call → Option (M Value)
  | .GetWebSessionsKeys user => some (M.map .webSessionsKeys (WebService.GetWebSessionsKeys s user))
  | _ => none

/-- The call `c` made directly on the service that the field `e` of `ap`
points to. -/
def Embedded.invoke (ch : Choices) (e : Embedded) (ap : BackendAccessPoint) (c : Call) :
    Option (M Value) :=
  match e with
  | .CAService => invokeCAService ch ap.CAService c
  | .PresenceService => invokePresenceService ch ap.PresenceService c
  | .ProvisioningService => invokeProvisioningService ap.ProvisioningService c
  | .WebService => invokeWebService ap.WebService c

/-- Go method promotion: the embedded fields whose type has method `m`. -/
def BackendAccessPoint.promoted (m : Method) : List Embedded :=
  BackendAccessPoint.embedded.filter (fun e => decide (m ∈ e.methods))

/-- A method call on the facade.  The selector `ap.m` denotes the method of the
one embedded field that has it; the call runs that method on that field.  (With
no or several such fields the selector would not compile; that branch is never
taken for a method of `AccessPoint`.) -/
def BackendAccessPoint.call (ch : Choices) (ap : BackendAccessPoint) (c : Call) : M Value :=
  match BackendAccessPoint.promoted c.method with
  | [e] =>
    match e.invoke ch ap c with
    | some f => f
    | none => fun w => (.panic, w)
  | _ => fun w => (.panic, w)

/-- What happens around a facade held by a node: a call through the interface,
or time passing. -/
inductive Event where
  | call (c : Call)
  | advance (dt : Nat)
  deriving DecidableEq, Repr

/-- A node runtime: the facade it holds and the world it runs in. -/
structure Node where
  ap : BackendAccessPoint
  world : World

/-- One event at a node.  A promoted method receives the embedded service
pointer, so a call acts on the world only. -/
def Node.step (ch : Choices) (n : Node) : Event → Node
  | .call c => { n with world := (n.ap.call ch c n.world).2 }
  | .advance dt => { n with world := { n.world with now := n.world.now + dt } }

/-- A sequence of events at a node. -/
def Node.run (ch : Choices) (n : Node) (evs : List Event) : Node :=
  evs.foldl (Node.step ch) n

/-- An event overwrites the server record `id` when it is an `UpsertServer` of
a server with that identifier. -/
def Event.overwrites (id : String) : Event → Bool
  | .call (.UpsertServer s _) => decide (s.id = id)
  | _ => false

/-- A stored entry respects the layout of server records: under the path
`servers` there are only server records, each under its own identifier. -/
def serverEntryOK (e : Entry) : Bool :=
  !(List.isPrefixOf ["servers"] e.key) ||
    (match e.value with
     | .server s => decide (e.key = serverKey s.id)
     | _ => false)

/-- Every entry of the store respects the layout of server records. -/
def serversWF (st : Store) : Bool :=
  st.entries.all serverEntryOK

/-- Two worlds with the same clock and, store by store, the same entries and
the same availability; the logs may differ. -/
def SameData (w w2 : World) : Prop :=
  w2.now = w.now ∧
    ∀ j, (w2.stores j).entries = (w.stores j).entries ∧
      (w2.stores j).available = (w.stores j).available

/-- The entry `e0` is in the store, it is the only entry under its key, and
the store is available and respects the layout of server records. -/
def Holds (st : Store) (e0 : Entry) : Prop :=
  st.available = true ∧ serversWF st = true ∧ e0 ∈ st.entries ∧
    ∀ e ∈ st.entries, e.key = e0.key → e = e0

/-! ## Concrete instances used in the examples -/

/-- Example choices: TTLs rounded down, a server needs an identifier, a key
needs an algorithm name and bytes, entries hashed by joining their fields. -/
def exampleChoices : Choices where
  rounding := Rounding.floor
  validServer := fun s => decide (s.id ≠ "")
  wellFormedKey := fun k => decide (k.keyType ≠ "") && decide (k.blob ≠ "")
  hash := fun e => e.certificateID ++ "/" ++ e.teleportUser ++ "/" ++ e.osUser

/-- Example world: clock at zero, every store empty and available. -/
def emptyWorld : World where
  now := 0
  stores := fun _ => { entries := [], available := true, log := [] }

/-- The facade that the constructor builds on store 0. -/
def exampleFacade : BackendAccessPoint where
  CAService := some { backend := some 0 }
  PresenceService := some { backend := some 0 }
  ProvisioningService := some { backend := some 0 }
  WebService := some { backend := some 0 }

/-- Example server. -/
def node1 : Server where
  id := "node1"
  addr := "10.0.0.1:3022"
  labels := []
  lastHeartbeat := 0

/-- A second example server. -/
def node2 : Server where
  id := "node2"
  addr := "10.0.0.2:3022"
  labels := []
  lastHeartbeat := 0

/-! ## The interface and the facade -/

/-- Every method of the interface is promoted from exactly one embedded field. -/
theorem promoted_unique (m : Method) : ∃ e, BackendAccessPoint.promoted m = [e] := by
  cases m <;> exact ⟨_, rfl⟩

/-- The constructor, evaluated: the four services wrap `bk`, the world is as it
was. -/
theorem NewBackendAccessPoint_eq (bk : Backend) (w : World) :
    NewBackendAccessPoint bk w =
      (.ok (some { CAService := some { backend := bk },
                   PresenceService := some { backend := bk },
                   ProvisioningService := some { backend := bk },
                   WebService := some { backend := bk } }), w) := rfl

/-- A node keeps the facade it holds through any sequence of events. -/
theorem Node.run_ap (ch : Choices) (evs : List Event) (n : Node) : (n.run ch evs).ap = n.ap := by
  induction evs generalizing n with
  | nil => rfl
  | cons ev evs ih =>
    have h : (n.step ch ev).ap = n.ap := by cases ev <;> rfl
    simpa [Node.run, List.foldl, h] using ih (n.step ch ev)

/-- C2, refuted as stated: the interface `AccessPoint` has ten methods, the
design document lists nine operations, so no one-to-one correspondence between
the two exists; the method `GetWebSessionsKeys` is in the interface and stands
for none of the nine. -/
theorem C2_counterexample :
    Fintype.card Method = 10 ∧ Fintype.card SpecOperation = 9 ∧
      Method.GetWebSessionsKeys ∈ AccessPoint ∧
      Method.GetWebSessionsKeys.specOperation = none ∧
      ¬ ∃ f : Method → SpecOperation, Function.Bijective f := by
  refine ⟨rfl, rfl, by decide, rfl, ?_⟩
  rintro ⟨f, hf⟩
  have h := Fintype.card_of_bijective hf
  have h1 : Fintype.card Method = 10 := rfl
  have h2 : Fintype.card SpecOperation = 9 := rfl
  omega

/-- C2, amended: the method set of `AccessPoint` is exactly ten methods, without
repetition; each of the nine operations of sections 4.1 to 4.4 is the meaning of
exactly one method, with the same number of parameters; and the only method
that stands for none of the nine is `GetWebSessionsKeys`. -/
theorem C2_method_set :
    AccessPoint.Nodup ∧ AccessPoint.length = 10 ∧ (∀ m : Method, m ∈ AccessPoint) ∧
      (AccessPoint.map (fun m => m.sig.name)).Nodup ∧
      (∀ op : SpecOperation, ∃! m : Method, m.specOperation = some op) ∧
      (∀ m : Method, m.specOperation = none ↔ m = Method.GetWebSessionsKeys) ∧
      (∀ (m : Method) (op : SpecOperation),
        m.specOperation = some op → m.sig.params.length = op.arity) := by
  refine ⟨by decide, rfl, fun m => by cases m <;> decide, by decide, ?_, ?_, ?_⟩
  · intro op
    cases op
    · exact ⟨.GetServers, rfl, fun m hm => by cases m <;> simp_all [Method.specOperation]⟩
    · exact ⟨.UpsertServer, rfl, fun m hm => by cases m <;> simp_all [Method.specOperation]⟩
    · exact ⟨.GetUserCertificateAuthority, rfl,
        fun m hm => by cases m <;> simp_all [Method.specOperation]⟩
    · exact ⟨.GetHostCertificateAuthority, rfl,
        fun m hm => by cases m <;> simp_all [Method.specOperation]⟩
    · exact ⟨.GetRemoteCertificates, rfl, fun m hm => by cases m <;> simp_all [Method.specOperation]⟩
    · exact ⟨.GetTrustedCertificates, rfl,
        fun m hm => by cases m <;> simp_all [Method.specOperation]⟩
    · exact ⟨.GetCertificateID, rfl, fun m hm => by cases m <;> simp_all [Method.specOperation]⟩
    · exact ⟨.UserMappingExists, rfl, fun m hm => by cases m <;> simp_all [Method.specOperation]⟩
    · exact ⟨.GetAllUserMappings, rfl, fun m hm => by cases m <;> simp_all [Method.specOperation]⟩
  · intro m
    cases m <;> simp [Method.specOperation]
  · intro m op h
    cases m <;> simp [Method.specOperation] at h <;> subst h <;> rfl

/-- Instance of C2 at `UserMappingExists`, which stands for `mappingExists` and
takes three parameters. -/
theorem C2_method_set_witness :
    Method.UserMappingExists.specOperation = some SpecOperation.mappingExists ∧
      Method.UserMappingExists.sig.params.length = SpecOperation.mappingExists.arity :=
  ⟨rfl, C2_method_set.2.2.2.2.2.2 Method.UserMappingExists SpecOperation.mappingExists rfl⟩

/-- C1: every call of an `AccessPoint` method on a facade is the same call made
directly on the embedded service that provides the method.  For each of the ten
methods and every argument list, the facade call is the named method of the
named service, run on the facade's own field with the same arguments: it gives
the same value (under the tag of its result type), the same error or panic, and
the same world, so the same backend operations; the tag changes neither the
world nor an error nor a panic.  Every method is promoted from exactly one
embedded field. -/
theorem C1_pass_through (ch : Choices) (ap : BackendAccessPoint) :
    ap.call ch .GetServers =
        M.map .servers (PresenceService.GetServers ap.PresenceService) ∧
      (∀ (s : Server) (ttl : Duration),
        ap.call ch (.UpsertServer s ttl) =
          M.map (fun _ => .done) (PresenceService.UpsertServer ch ap.PresenceService s ttl)) ∧
      ap.call ch .GetUserCertificateAuthority =
        M.map .authority (CAService.GetUserCertificateAuthority ap.CAService) ∧
      ap.call ch .GetHostCertificateAuthority =
        M.map .authority (CAService.GetHostCertificateAuthority ap.CAService) ∧
      (∀ user : String,
        ap.call ch (.GetWebSessionsKeys user) =
          M.map .webSessionsKeys (WebService.GetWebSessionsKeys ap.WebService user)) ∧
      (∀ certType domainName : String,
        ap.call ch (.GetRemoteCertificates certType domainName) =
          M.map .authorities (CAService.GetRemoteCertificates ap.CAService certType domainName)) ∧
      (∀ certType : String,
        ap.call ch (.GetTrustedCertificates certType) =
          M.map .authorities (CAService.GetTrustedCertificates ap.CAService certType)) ∧
      (∀ (certType : String) (key : PublicKey),
        ap.call ch (.GetCertificateID certType key) =
          M.map (fun r => .certificateID r.1 r.2)
            (CAService.GetCertificateID ch ap.CAService certType key)) ∧
      ap.call ch .GetAllUserMappings =
        M.map .hashes (CAService.GetAllUserMappings ch ap.CAService) ∧
      (∀ certificateID teleportUser osUser : String,
        ap.call ch (.UserMappingExists certificateID teleportUser osUser) =
          M.map .mappingExists
            (CAService.UserMappingExists ap.CAService certificateID teleportUser osUser)) ∧
      (∀ (α : Type) (f : α → Value) (m : M α) (w : World),
        (M.map f m w).2 = (m w).2 ∧
        ((M.map f m w).1 = .panic ↔ (m w).1 = .panic) ∧
        (∀ e : Error, (M.map f m w).1 = .fail e ↔ (m w).1 = .fail e) ∧
        (∀ v : Value, (M.map f m w).1 = .ok v ↔ ∃ a, (m w).1 = .ok a ∧ f a = v)) ∧
      (∀ m : Method, ∃ e : Embedded, BackendAccessPoint.promoted m = [e]) := by
  refine ⟨rfl, fun _ _ => rfl, rfl, rfl, fun _ => rfl, fun _ _ => rfl, fun _ => rfl,
    fun _ _ => rfl, rfl, fun _ _ _ => rfl, ?_, fun m => by cases m <;> exact ⟨_, rfl⟩⟩
  intro α f m w
  cases h : (m w).1 <;> simp [M.map, Res.bind, h]

/-- C3: for every handle and every world, the constructor returns a facade whose
four fields are the results of the four service constructors on that handle;
all four are non-nil and every one of the four services holds that handle. -/
theorem C3_bound_to_one_handle (bk : Backend) (w : World) :
    ∃ ap : BackendAccessPoint,
      (NewBackendAccessPoint bk w).1 = .ok (some ap) ∧
      (services.NewCAService bk w).1 = .ok ap.CAService ∧
      (services.NewPresenceService bk w).1 = .ok ap.PresenceService ∧
      (services.NewProvisioningService bk w).1 = .ok ap.ProvisioningService ∧
      (services.NewWebService bk w).1 = .ok ap.WebService ∧
      ap.CAService.map (fun s => s.backend) = some bk ∧
      ap.PresenceService.map (fun s => s.backend) = some bk ∧
      ap.ProvisioningService.map (fun s => s.backend) = some bk ∧
      ap.WebService.map (fun s => s.backend) = some bk :=
  ⟨_, rfl, rfl, rfl, rfl, rfl, rfl, rfl, rfl, rfl⟩

/-- C8: the constructor has no failure path: for every handle, the nil one
included, and every world it returns a non-nil facade pointer, with no error
and no panic, and leaves the world, the log of every backend store included,
exactly as it was. -/
theorem C8_constructor_total (bk : Backend) (w : World) :
    (∃ ap : BackendAccessPoint, (NewBackendAccessPoint bk w).1 = .ok (some ap)) ∧
      (∃ ap : BackendAccessPoint, (NewBackendAccessPoint none w).1 = .ok (some ap)) ∧
      (NewBackendAccessPoint bk w).2 = w ∧
      ∀ i : Nat, ((NewBackendAccessPoint bk w).2.stores i).log = (w.stores i).log :=
  ⟨⟨_, rfl⟩, ⟨_, rfl⟩, rfl, fun _ => rfl⟩

/-- C4: a facade is determined by its four service references; a node that
holds a facade built on `bk` holds the very same facade after any sequence of
interface calls and clock advances, each of its services still bound to `bk`. -/
theorem C4_stateless_facade (ch : Choices) (bk : Backend) (w0 w : World)
    (ap : BackendAccessPoint) (evs : List Event)
    (hap : (NewBackendAccessPoint bk w0).1 = .ok (some ap)) :
    (∀ a b : BackendAccessPoint, a.CAService = b.CAService →
        a.PresenceService = b.PresenceService →
        a.ProvisioningService = b.ProvisioningService →
        a.WebService = b.WebService → a = b) ∧
      (Node.run ch ⟨ap, w⟩ evs).ap = ap ∧
      (Node.run ch ⟨ap, w⟩ evs).ap.CAService = some { backend := bk } ∧
      (Node.run ch ⟨ap, w⟩ evs).ap.PresenceService = some { backend := bk } ∧
      (Node.run ch ⟨ap, w⟩ evs).ap.ProvisioningService = some { backend := bk } ∧
      (Node.run ch ⟨ap, w⟩ evs).ap.WebService = some { backend := bk } := by
  have e : ap = { CAService := some { backend := bk },
                  PresenceService := some { backend := bk },
                  ProvisioningService := some { backend := bk },
                  WebService := some { backend := bk } } := by
    rw [NewBackendAccessPoint_eq] at hap
    injection hap with h
    injection h with h
    exact h.symm
  refine ⟨?_, ?_, ?_, ?_, ?_, ?_⟩
  · intro a b h1 h2 h3 h4
    cases a; cases b; simp_all
  all_goals rw [Node.run_ap]
  all_goals simp [e]

/-! ## Calls on the facade, method by method -/

theorem call_GetServers (ch : Choices) (ap : BackendAccessPoint) :
    ap.call ch .GetServers = M.map .servers (PresenceService.GetServers ap.PresenceService) := rfl

theorem call_UpsertServer (ch : Choices) (ap : BackendAccessPoint) (s : Server) (ttl : Duration) :
    ap.call ch (.UpsertServer s ttl) =
      M.map (fun _ => .done) (PresenceService.UpsertServer ch ap.PresenceService s ttl) := rfl

theorem call_GetRemoteCertificates (ch : Choices) (ap : BackendAccessPoint)
    (certType domainName : String) :
    ap.call ch (.GetRemoteCertificates certType domainName) =
      M.map .authorities (CAService.GetRemoteCertificates ap.CAService certType domainName) := rfl

theorem call_GetTrustedCertificates (ch : Choices) (ap : BackendAccessPoint) (certType : String) :
    ap.call ch (.GetTrustedCertificates certType) =
      M.map .authorities (CAService.GetTrustedCertificates ap.CAService certType) := rfl

theorem call_GetCertificateID (ch : Choices) (ap : BackendAccessPoint) (certType : String)
    (key : PublicKey) :
    ap.call ch (.GetCertificateID certType key) =
      M.map (fun r => .certificateID r.1 r.2)
        (CAService.GetCertificateID ch ap.CAService certType key) := rfl

/-! ## Frame lemmas: what a call leaves alone -/

theorem SameData.refl (w : World) : SameData w w := ⟨rfl, fun _ => ⟨rfl, rfl⟩⟩

theorem Store.get_data (st : Store) (now : Int) (key : Key) :
    (st.get now key).2.entries = st.entries ∧ (st.get now key).2.available = st.available := by
  unfold Store.get
  split
  · split <;> exact ⟨rfl, rfl⟩
  · exact ⟨rfl, rfl⟩

theorem Store.list_data (st : Store) (now : Int) (pfx : Key) :
    (st.list now pfx).2.entries = st.entries ∧ (st.list now pfx).2.available = st.available := by
  unfold Store.list
  split <;> exact ⟨rfl, rfl⟩

/-- A store operation that keeps entries and availability keeps them in the
whole world, whatever the handle. -/
theorem Backend.run_sameData {α : Type} (bk : Backend) (f : Store → Int → Res α × Store)
    (hf : ∀ st now, (f st now).2.entries = st.entries ∧ (f st now).2.available = st.available)
    (w : World) : SameData w (bk.run f w).2 := by
  cases bk with
  | none => exact SameData.refl w
  | some i =>
    refine ⟨rfl, fun j => ?_⟩
    by_cases h : j = i
    · subst h
      simpa [Backend.run, World.setStore] using hf (w.stores j) w.now
    · simp [Backend.run, World.setStore, Function.update_noteq h]

theorem Backend.get_sameData (bk : Backend) (key : Key) (w : World) :
    SameData w (bk.get key w).2 :=
  Backend.run_sameData bk _ (fun st now => Store.get_data st now key) w

theorem Backend.list_sameData (bk : Backend) (pfx : Key) (w : World) :
    SameData w (bk.list pfx w).2 :=
  Backend.run_sameData bk _ (fun st now => Store.list_data st now pfx) w

/-- Every interface call other than `UpsertServer` only reads: it leaves the
clock and the data of every store as they were. -/
theorem call_sameData (ch : Choices) (ap : BackendAccessPoint) (c : Call)
    (hc : c.method ≠ Method.UpsertServer) (w : World) : SameData w (ap.call ch c w).2 := by
  cases c with
  | UpsertServer s ttl => exact absurd rfl hc
  | GetServers =>
    show SameData w (PresenceService.GetServers ap.PresenceService w).2
    unfold PresenceService.GetServers
    cases ap.PresenceService with
    | none => exact SameData.refl w
    | some svc => exact Backend.list_sameData _ _ w
  | GetUserCertificateAuthority =>
    show SameData w (CAService.getAuthority ap.CAService _ w).2
    unfold CAService.getAuthority
    cases ap.CAService with
    | none => exact SameData.refl w
    | some svc => exact Backend.get_sameData _ _ w
  | GetHostCertificateAuthority =>
    show SameData w (CAService.getAuthority ap.CAService _ w).2
    unfold CAService.getAuthority
    cases ap.CAService with
    | none => exact SameData.refl w
    | some svc => exact Backend.get_sameData _ _ w
  | GetWebSessionsKeys user =>
    show SameData w (WebService.GetWebSessionsKeys ap.WebService user w).2
    unfold WebService.GetWebSessionsKeys
    cases ap.WebService with
    | none => exact SameData.refl w
    | some svc => exact Backend.list_sameData _ _ w
  | GetRemoteCertificates certType domainName =>
    show SameData w (CAService.listAuthorities ap.CAService certType _ w).2
    unfold CAService.listAuthorities
    split
    · cases ap.CAService with
      | none => exact SameData.refl w
      | some svc => exact Backend.list_sameData _ _ w
    · exact SameData.refl w
  | GetTrustedCertificates certType =>
    show SameData w (CAService.listAuthorities ap.CAService certType _ w).2
    unfold CAService.listAuthorities
    split
    · cases ap.CAService with
      | none => exact SameData.refl w
      | some svc => exact Backend.list_sameData _ _ w
    · exact SameData.refl w
  | GetCertificateID certType key =>
    show SameData w (CAService.GetCertificateID ch ap.CAService certType key w).2
    unfold CAService.GetCertificateID
    split
    · cases ap.CAService with
      | none => exact SameData.refl w
      | some svc => exact Backend.get_sameData _ _ w
    · exact SameData.refl w
  | GetAllUserMappings =>
    show SameData w (CAService.GetAllUserMappings ch ap.CAService w).2
    unfold CAService.GetAllUserMappings
    cases ap.CAService with
    | none => exact SameData.refl w
    | some svc => exact Backend.list_sameData _ _ w
  | UserMappingExists certificateID teleportUser osUser =>
    show SameData w (CAService.UserMappingExists ap.CAService certificateID teleportUser osUser w).2
    unfold CAService.UserMappingExists
    cases ap.CAService with
    | none => exact SameData.refl w
    | some svc => exact Backend.get_sameData _ _ w

/-! ## Certificate type validation and certificate identifiers -/

/-- A certificate type other than `user` and `host` fails the check. -/
theorem validCertType_eq_false {certType : String} (h1 : certType ≠ "user")
    (h2 : certType ≠ "host") : validCertType certType = false := by
  simp [validCertType, UserCert, HostCert, h1, h2]

/-- A facade built by the constructor, as a record. -/
theorem facade_of_constructor {bk : Backend} {w0 : World} {ap : BackendAccessPoint}
    (hap : (NewBackendAccessPoint bk w0).1 = .ok (some ap)) :
    ap = { CAService := some { backend := bk },
           PresenceService := some { backend := bk },
           ProvisioningService := some { backend := bk },
           WebService := some { backend := bk } } := by
  rw [NewBackendAccessPoint_eq] at hap
  injection hap with h
  injection h with h
  exact h.symm

/-- C6: on every facade, whatever its services and their handles, each of the
three operations that take a `certType` fails with `ValidationError` when the
type is neither `user` nor `host`, and the world is left exactly as it was: no
store is read, no log grows. -/
theorem C6_unknown_certType_rejected (ch : Choices) (w : World)
    (ap : BackendAccessPoint) (certType domainName : String) (key : PublicKey)
    (h1 : certType ≠ "user") (h2 : certType ≠ "host") :
    ap.call ch (.GetRemoteCertificates certType domainName) w = (.fail .ValidationError, w) ∧
      ap.call ch (.GetTrustedCertificates certType) w = (.fail .ValidationError, w) ∧
      ap.call ch (.GetCertificateID certType key) w = (.fail .ValidationError, w) := by
  have hv := validCertType_eq_false h1 h2
  refine ⟨?_, ?_, ?_⟩
  · simp [call_GetRemoteCertificates, M.map, CAService.GetRemoteCertificates,
      CAService.listAuthorities, hv, Res.bind]
  · simp [call_GetTrustedCertificates, M.map, CAService.GetTrustedCertificates,
      CAService.listAuthorities, hv, Res.bind]
  · simp [call_GetCertificateID, M.map, CAService.GetCertificateID, hv, Res.bind]

/-- C7: on a facade built on store `i`, `GetCertificateID` with a valid type and
a well-formed key that has no live entry in an available store returns the empty
identifier with `found = false` and no error; and any error it returns is
either a `ValidationError`, caused by an unknown type or a malformed key, or a
`BackendError`, caused by an unavailable store or an entry that does not hold
an identifier; it is never a `NotFoundError`. -/
theorem C7_absence_is_not_an_error (ch : Choices) (i : Nat) (w0 w : World)
    (ap : BackendAccessPoint) (certType : String) (key : PublicKey)
    (hap : (NewBackendAccessPoint (some i) w0).1 = .ok (some ap)) :
    (validCertType certType = true → ch.wellFormedKey key = true →
        (w.stores i).available = true →
        (w.stores i).lookup w.now (certificateKey certType key) = none →
        (ap.call ch (.GetCertificateID certType key) w).1 = .ok (.certificateID "" false)) ∧
      (∀ e : Error, (ap.call ch (.GetCertificateID certType key) w).1 = .fail e →
        e ≠ .NotFoundError ∧
        ((e = .ValidationError ∧
            (validCertType certType = false ∨ ch.wellFormedKey key = false)) ∨
          (e = .BackendError ∧
            ((w.stores i).available = false ∨
              ∃ en : Entry, (w.stores i).lookup w.now (certificateKey certType key) = some en ∧
                en.value.asCertificateID = none)))) := by
  have e := facade_of_constructor hap
  subst e
  constructor
  · intro hv hk ha hl
    simp [call_GetCertificateID, M.map, CAService.GetCertificateID, hv, hk, Backend.get,
      Backend.run, Store.get, ha, hl, Res.bind]
  · intro e he
    simp only [call_GetCertificateID, M.map, CAService.GetCertificateID] at he
    by_cases hv : validCertType certType = true
    · by_cases hk : ch.wellFormedKey key = true
      · by_cases ha : (w.stores i).available = true
        · cases hl : (w.stores i).lookup w.now (certificateKey certType key) with
          | none =>
            simp [hv, hk, Backend.get, Backend.run, Store.get, ha, hl, Res.bind] at he
          | some en =>
            cases hd : en.value.asCertificateID with
            | none =>
              simp [hv, hk, Backend.get, Backend.run, Store.get, ha, hl, hd, Res.bind] at he
              subst he
              exact ⟨by decide, Or.inr ⟨rfl, Or.inr ⟨en, rfl, hd⟩⟩⟩
            | some id =>
              simp [hv, hk, Backend.get, Backend.run, Store.get, ha, hl, hd, Res.bind] at he
        · simp [hv, hk, Backend.get, Backend.run, Store.get, ha, Res.bind] at he
          subst he
          exact ⟨by decide, Or.inr ⟨rfl, Or.inl (by simpa using ha)⟩⟩
      · simp [hv, hk, Res.bind] at he
        subst he
        exact ⟨by decide, Or.inl ⟨rfl, Or.inr (by simpa using hk)⟩⟩
    · simp [hv, Res.bind] at he
      subst he
      exact ⟨by decide, Or.inl ⟨rfl, Or.inl (by simpa using hv)⟩⟩

/-! ## Server presence -/

/-- Decoding succeeds on a list whose values all decode. -/
theorem decodeAll_ok {α : Type} (f : Val → Option α) (vs : List Val)
    (h : ∀ v ∈ vs, ∃ a, f v = some a) : decodeAll f vs = .ok (vs.filterMap f) := by
  induction vs with
  | nil => rfl
  | cons v vs ih =>
    obtain ⟨a, ha⟩ := h v (List.mem_cons_self v vs)
    have ih2 := ih (fun x hx => h x (List.mem_cons_of_mem v hx))
    simp [decodeAll, ha, ih2, List.filterMap_cons]

/-- The key of a server record lies under the path `servers`. -/
theorem serverKey_under (id : String) : List.isPrefixOf ["servers"] (serverKey id) = true := by
  simp [serverKey, List.isPrefixOf]

/-- Server keys of different identifiers differ. -/
theorem serverKey_inj {a b : String} (h : serverKey a = serverKey b) : a = b := by
  simpa [serverKey] using h

/-- In a well-formed store an entry under `servers` is a server record under the
key of its identifier. -/
theorem serversWF_entry {st : Store} (hwf : serversWF st = true) {e : Entry}
    (he : e ∈ st.entries) (hp : List.isPrefixOf ["servers"] e.key = true) :
    ∃ s : Server, e.value = .server s ∧ e.key = serverKey s.id := by
  have h := (List.all_eq_true.mp hwf) e he
  unfold serverEntryOK at h
  rw [hp] at h
  cases hv : e.value with
  | server s => rw [hv] at h; exact ⟨s, rfl, by simpa using h⟩
  | authority ca => rw [hv] at h; simp at h
  | authorizedKey k => rw [hv] at h; simp at h
  | certificateID id => rw [hv] at h; simp at h
  | userMapping m => rw [hv] at h; simp at h

/-- Reading the servers of a store in which the record of `s` holds: the call
succeeds, `s` is listed exactly when its entry is live, and a listed server
with the identifier of `s` is only there while that entry is live. -/
theorem getServers_of_holds (ch : Choices) (i : Nat) (ap : BackendAccessPoint)
    (hps : ap.PresenceService = some { backend := some i }) (w : World) (s : Server)
    (ex : Option Int) (h : Holds (w.stores i) ⟨serverKey s.id, .server s, ex⟩) :
    ∃ l : List Server, (ap.call ch .GetServers w).1 = .ok (.servers l) ∧
      (s ∈ l ↔ Entry.live ⟨serverKey s.id, .server s, ex⟩ w.now = true) ∧
      (∀ s2 ∈ l, s2.id = s.id → Entry.live ⟨serverKey s.id, .server s, ex⟩ w.now = true) := by
  obtain ⟨ha, hwf, hmem, huniq⟩ := h
  have hdec : ∀ v ∈ ((w.stores i).entries.filter
      (fun e => List.isPrefixOf ["servers"] e.key && e.live w.now)).map (·.value),
      ∃ a, Val.asServer v = some a := by
    intro v hv
    obtain ⟨e, he, rfl⟩ := List.mem_map.mp hv
    obtain ⟨he1, he2⟩ := List.mem_filter.mp he
    simp only [Bool.and_eq_true] at he2
    obtain ⟨s2, hs2, _⟩ := serversWF_entry hwf he1 he2.1
    exact ⟨s2, by rw [hs2]; rfl⟩
  refine ⟨(((w.stores i).entries.filter
      (fun e => List.isPrefixOf ["servers"] e.key && e.live w.now)).map (·.value)).filterMap
      Val.asServer, ?_, ?_, ?_⟩
  · simp only [call_GetServers, M.map, PresenceService.GetServers, hps, Backend.list,
      Backend.run, Store.list, ha, if_true, Res.bind, decodeAll_ok _ _ hdec]
  · constructor
    · intro hs
      obtain ⟨v, hv, hvs⟩ := List.mem_filterMap.mp hs
      obtain ⟨e, he, rfl⟩ := List.mem_map.mp hv
      obtain ⟨he1, he2⟩ := List.mem_filter.mp he
      simp only [Bool.and_eq_true] at he2
      obtain ⟨s2, hs2, hk⟩ := serversWF_entry hwf he1 he2.1
      rw [hs2] at hvs
      have : s2 = s := by simpa [Val.asServer] using hvs
      subst this
      have := huniq e he1 hk
      rw [← this]
      exact he2.2
    · intro hl
      refine List.mem_filterMap.mpr ⟨.server s, ?_, rfl⟩
      refine List.mem_map.mpr ⟨_, List.mem_filter.mpr ⟨hmem, ?_⟩, rfl⟩
      simp only [Bool.and_eq_true]
      exact ⟨serverKey_under s.id, hl⟩
  · intro s2 hs hid
    obtain ⟨v, hv, hvs⟩ := List.mem_filterMap.mp hs
    obtain ⟨e, he, rfl⟩ := List.mem_map.mp hv
    obtain ⟨he1, he2⟩ := List.mem_filter.mp he
    simp only [Bool.and_eq_true] at he2
    obtain ⟨s3, hs3, hk⟩ := serversWF_entry hwf he1 he2.1
    rw [hs3] at hvs
    have : s3 = s2 := by simpa [Val.asServer] using hvs
    subst this
    rw [hid] at hk
    have := huniq e he1 hk
    rw [← this]
    exact he2.2

/-- Writing a server record under its key keeps the layout of server records. -/
theorem serversWF_put (r : Rounding) (st : Store) (now : Int) (s : Server) (ttl : Duration)
    (hwf : serversWF st = true) :
    serversWF (st.put r now (serverKey s.id) (.server s) ttl).2 = true := by
  unfold Store.put
  split
  · simp only [serversWF, List.all_cons, Bool.and_eq_true]
    refine ⟨by simp [serverEntryOK], ?_⟩
    rw [List.all_eq_true]
    intro e he
    exact (List.all_eq_true.mp hwf) e (List.mem_filter.mp he).1
  · exact hwf

/-- After a write of the record of `s` to an available, well-formed store, that
record holds. -/
theorem put_holds_new (r : Rounding) (st : Store) (now : Int) (s : Server) (ttl : Duration)
    (ha : st.available = true) (hwf : serversWF st = true) :
    Holds (st.put r now (serverKey s.id) (.server s) ttl).2
      ⟨serverKey s.id, .server s, expiry r now ttl⟩ := by
  refine ⟨?_, serversWF_put r st now s ttl hwf, ?_, ?_⟩
  · simp [Store.put, ha]
  · simp [Store.put, ha]
  · intro e he hk
    simp only [Store.put, ha, if_true, List.mem_cons, List.mem_filter] at he
    rcases he with he | ⟨_, he⟩
    · exact he
    · simp at he
      exact absurd hk he

/-- A write of another server's record leaves the record of `s` holding. -/
theorem put_holds_other (r : Rounding) (st : Store) (now : Int) (s2 : Server) (ttl : Duration)
    (e0 : Entry) (hne : serverKey s2.id ≠ e0.key) (h : Holds st e0) :
    Holds (st.put r now (serverKey s2.id) (.server s2) ttl).2 e0 := by
  obtain ⟨ha, hwf, hmem, huniq⟩ := h
  refine ⟨?_, serversWF_put r st now s2 ttl hwf, ?_, ?_⟩
  · simp [Store.put, ha]
  · simp only [Store.put, ha, if_true, List.mem_cons, List.mem_filter]
    refine Or.inr ⟨hmem, ?_⟩
    simpa using fun h => hne h.symm
  · intro e he hk
    simp only [Store.put, ha, if_true, List.mem_cons, List.mem_filter] at he
    rcases he with he | ⟨he, _⟩
    · subst he
      exact absurd hk hne
    · exact huniq e he hk

/-- The holding of a record only depends on the data of the store. -/
theorem Holds.of_sameData {w w2 : World} (h : SameData w w2) (i : Nat) (e0 : Entry)
    (hh : Holds (w.stores i) e0) : Holds (w2.stores i) e0 := by
  obtain ⟨he, ha⟩ := h.2 i
  obtain ⟨h1, h2, h3, h4⟩ := hh
  refine ⟨by rw [ha]; exact h1, ?_, by rw [he]; exact h3, by rw [he]; exact h4⟩
  unfold serversWF at h2 ⊢
  rw [he]
  exact h2

/-- The world after an `UpsertServer` on a facade whose presence service is
bound to store `i`. -/
theorem upsert_world (ch : Choices) (i : Nat) (ap : BackendAccessPoint)
    (hps : ap.PresenceService = some { backend := some i }) (s : Server) (ttl : Duration)
    (w : World) :
    (ap.call ch (.UpsertServer s ttl) w).2 =
      if ch.validServer s then
        w.setStore i ((w.stores i).put ch.rounding w.now (serverKey s.id) (.server s) ttl).2
      else w := by
  simp only [call_UpsertServer, M.map, PresenceService.UpsertServer, hps]
  split <;> rfl

/-- A successful `UpsertServer` passed validation and found the store
available. -/
theorem upsert_ok (ch : Choices) (i : Nat) (ap : BackendAccessPoint)
    (hps : ap.PresenceService = some { backend := some i }) (s : Server) (ttl : Duration)
    (w : World) (hok : (ap.call ch (.UpsertServer s ttl) w).1 = .ok .done) :
    ch.validServer s = true ∧ (w.stores i).available = true := by
  simp only [call_UpsertServer, M.map, PresenceService.UpsertServer, hps] at hok
  by_cases hv : ch.validServer s = true
  · refine ⟨hv, ?_⟩
    by_cases ha : (w.stores i).available = true
    · exact ha
    · simp [hv, Backend.put, Backend.run, Store.put, ha, Res.bind] at hok
  · simp [hv, Res.bind] at hok

/-- One event that does not overwrite the record of `s` leaves it holding. -/
theorem step_holds (ch : Choices) (i : Nat) (n : Node)
    (hps : n.ap.PresenceService = some { backend := some i }) (id : String) (e0 : Entry)
    (hk : e0.key = serverKey id) (ev : Event) (hev : ev.overwrites id = false)
    (h : Holds (n.world.stores i) e0) : Holds ((n.step ch ev).world.stores i) e0 := by
  cases ev with
  | advance dt => exact h
  | call c =>
    by_cases hc : c.method = Method.UpsertServer
    · cases c <;> simp [Call.method] at hc
      rename_i s2 ttl2
      have hid : s2.id ≠ id := by simpa [Event.overwrites] using hev
      show Holds ((n.ap.call ch (.UpsertServer s2 ttl2) n.world).2.stores i) e0
      rw [upsert_world ch i n.ap hps]
      split
      · simp only [World.setStore, Function.update_same]
        refine put_holds_other _ _ _ _ _ _ ?_ h
        rw [hk]
        exact fun hh => hid (serverKey_inj hh)
      · exact h
    · exact Holds.of_sameData (call_sameData ch n.ap c hc n.world) i e0 h

/-- A sequence of events none of which overwrites the record of `s` leaves it
holding. -/
theorem run_holds (ch : Choices) (i : Nat) (id : String) (e0 : Entry)
    (hk : e0.key = serverKey id) (evs : List Event) (n : Node)
    (hps : n.ap.PresenceService = some { backend := some i })
    (hev : ∀ ev ∈ evs, Event.overwrites id ev = false)
    (h : Holds (n.world.stores i) e0) : Holds ((n.run ch evs).world.stores i) e0 := by
  induction evs generalizing n with
  | nil => exact h
  | cons ev evs ih =>
    have hap : (n.step ch ev).ap = n.ap := by cases ev <;> rfl
    exact ih (n.step ch ev) (by rw [hap]; exact hps)
      (fun e he => hev e (List.mem_cons_of_mem ev he))
      (step_holds ch i n hps id e0 hk ev (hev ev (List.mem_cons_self ev evs)) h)

/-- C5: on a facade built on store `i`, after a successful `UpsertServer s ttl`
at time `w.now` in a well-formed store, and after any sequence of interface
calls and clock advances that does not upsert a server with the identifier of
`s`, `GetServers` succeeds and: if `ttl = 0`, `s` is listed; if `ttl` is at
least one second, `s` is listed exactly while the time elapsed since the upsert
is below `ttl` at second resolution (a positive whole number of seconds less
than one second away from `ttl`), and once that time has elapsed no server with
the identifier of `s` is listed. -/
theorem C5_presence_ttl (ch : Choices) (i : Nat) (w0 w : World) (ap : BackendAccessPoint)
    (s : Server) (ttl : Duration) (evs : List Event)
    (hap : (NewBackendAccessPoint (some i) w0).1 = .ok (some ap))
    (hwf : serversWF (w.stores i) = true)
    (hok : (ap.call ch (.UpsertServer s ttl) w).1 = .ok .done)
    (hev : ∀ ev ∈ evs, Event.overwrites s.id ev = false) :
    ∃ l : List Server,
      (ap.call ch .GetServers
        (Node.run ch ⟨ap, (ap.call ch (.UpsertServer s ttl) w).2⟩ evs).world).1
          = .ok (.servers l) ∧
      (ttl = 0 → s ∈ l) ∧
      (second ≤ ttl →
        0 < ch.rounding.round ttl ∧ ch.rounding.round ttl % second = 0 ∧
        ttl - second < ch.rounding.round ttl ∧ ch.rounding.round ttl < ttl + second ∧
        (s ∈ l ↔
          (Node.run ch ⟨ap, (ap.call ch (.UpsertServer s ttl) w).2⟩ evs).world.now - w.now
            < ch.rounding.round ttl) ∧
        (ch.rounding.round ttl ≤
            (Node.run ch ⟨ap, (ap.call ch (.UpsertServer s ttl) w).2⟩ evs).world.now - w.now →
          ∀ s2 ∈ l, s2.id ≠ s.id)) := by
  have e := facade_of_constructor hap
  have hps : ap.PresenceService = some { backend := some i } := by rw [e]
  obtain ⟨hv, ha⟩ := upsert_ok ch i ap hps s ttl w hok
  have hw1 : (ap.call ch (.UpsertServer s ttl) w).2 =
      w.setStore i ((w.stores i).put ch.rounding w.now (serverKey s.id) (.server s) ttl).2 := by
    rw [upsert_world ch i ap hps, if_pos hv]
  have h1 : Holds ((ap.call ch (.UpsertServer s ttl) w).2.stores i)
      ⟨serverKey s.id, .server s, expiry ch.rounding w.now ttl⟩ := by
    rw [hw1]
    simp only [World.setStore, Function.update_same]
    exact put_holds_new ch.rounding (w.stores i) w.now s ttl ha hwf
  have h2 := run_holds ch i s.id _ rfl evs ⟨ap, (ap.call ch (.UpsertServer s ttl) w).2⟩ hps hev h1
  obtain ⟨l, hl, hin, habs⟩ := getServers_of_holds ch i ap hps _ s _ h2
  refine ⟨l, hl, ?_, ?_⟩
  · intro h0
    apply hin.mpr
    simp [Entry.live, expiry, h0]
  · intro hge
    have hn := ch.rounding.near ttl
    have hwh := ch.rounding.whole ttl
    have hne : ttl ≠ 0 := by
      intro h0
      rw [h0] at hge
      exact absurd hge (by decide)
    have hlive : ∀ t : Int,
        Entry.live ⟨serverKey s.id, .server s, expiry ch.rounding w.now ttl⟩ t = true ↔
          t - w.now < ch.rounding.round ttl := by
      intro t
      simp only [Entry.live, expiry, if_neg hne, decide_eq_true_eq]
      constructor <;> intro h <;> omega
    refine ⟨by omega, hwh, hn.1, hn.2, ?_, ?_⟩
    · rw [hin, hlive]
    · intro hel s2 hs2 hid
      have := (hlive _).mp (habs s2 hs2 hid)
      omega

/-- The example world after registering `node2` for five seconds, registering
`node1` permanently and letting six seconds pass. -/
theorem C5_presence_ttl_witness :
    ∃ l : List Server,
      (exampleFacade.call exampleChoices .GetServers
        (Node.run exampleChoices
          ⟨exampleFacade,
            (exampleFacade.call exampleChoices (.UpsertServer node2 (5 * second)) emptyWorld).2⟩
          [.call (.UpsertServer node1 0), .advance 6000000000]).world).1
          = .ok (.servers l) ∧
      (second ≤ 5 * second → ∀ s2 ∈ l, s2.id ≠ node2.id) := by
  obtain ⟨l, hl, _, h⟩ := C5_presence_ttl exampleChoices 0 emptyWorld emptyWorld exampleFacade
    node2 (5 * second) [.call (.UpsertServer node1 0), .advance 6000000000] rfl rfl rfl
    (by decide)
  refine ⟨l, hl, fun hge => (h hge).2.2.2.2.2 ?_⟩
  decide

/-- The facade built on store 0 stays the same facade, bound to store 0, through
a registration, a lookup and a pause. -/
theorem C4_stateless_facade_witness :
    (NewBackendAccessPoint (some 0) emptyWorld).1 = .ok (some exampleFacade) ∧
      (Node.run exampleChoices ⟨exampleFacade, emptyWorld⟩
        [.call (.UpsertServer node1 0), .call .GetServers, .advance 7,
         .call (.GetTrustedCertificates "host")]).ap = exampleFacade :=
  ⟨rfl, (C4_stateless_facade exampleChoices (some 0) emptyWorld emptyWorld exampleFacade
    [.call (.UpsertServer node1 0), .call .GetServers, .advance 7,
     .call (.GetTrustedCertificates "host")] rfl).2.1⟩

/-- The certificate type `users` is rejected by all three operations, the world
untouched. -/
theorem C6_unknown_certType_rejected_witness :
    exampleFacade.call exampleChoices (.GetRemoteCertificates "users" "example.com") emptyWorld
        = (.fail .ValidationError, emptyWorld) ∧
      exampleFacade.call exampleChoices (.GetTrustedCertificates "users") emptyWorld
        = (.fail .ValidationError, emptyWorld) ∧
      exampleFacade.call exampleChoices (.GetCertificateID "users" ⟨"ssh-rsa", "AAAA"⟩) emptyWorld
        = (.fail .ValidationError, emptyWorld) :=
  C6_unknown_certType_rejected exampleChoices emptyWorld exampleFacade "users" "example.com"
    ⟨"ssh-rsa", "AAAA"⟩ (by decide) (by decide)

/-- In the empty world a well-formed key is not registered under `user`: the
lookup gives `found = false` without error; and the error of a lookup with a key
without algorithm name is not `NotFoundError`. -/
theorem C7_absence_is_not_an_error_witness :
    (exampleFacade.call exampleChoices (.GetCertificateID "user" ⟨"ssh-rsa", "AAAA"⟩)
        emptyWorld).1 = .ok (.certificateID "" false) ∧
      Error.ValidationError ≠ Error.NotFoundError :=
  ⟨(C7_absence_is_not_an_error exampleChoices 0 emptyWorld emptyWorld exampleFacade "user"
      ⟨"ssh-rsa", "AAAA"⟩ rfl).1 rfl rfl rfl rfl,
   ((C7_absence_is_not_an_error exampleChoices 0 emptyWorld emptyWorld exampleFacade "user"
      ⟨"", "AAAA"⟩ rfl).2 Error.ValidationError rfl).1⟩

end auth

end teleport
